import Mathlib

/-!
# Verification of the file-loader artifact namer/emitter

Shallow embedding of `src/index.js` (the `loader` function) of the
`vabaly/file-loader` repository, together with theorems settling the
specification claims about it.

The host environment (webpack's `LoaderContext` plus `loader-utils`'
`interpolateName`) is modelled as a record of pure collaborator functions.
User-supplied callbacks (`outputPath`, `publicPath`,
`postTransformPublicPath`) may throw; this is modelled by letting them
return `Except String String`.  Emission (`this.emitFile`) is modelled by
returning the list of `(path, content)` pairs that the invocation emits.

All string operations are defined over the character list of the string so
that every definition evaluates by kernel reduction.
-/

deriving instance DecidableEq for Except

/-- File content: a byte buffer (`Buffer` in the source). -/
abbrev Bytes := List Nat

/-- Emptiness of a string, via its character list. -/
def strEmpty (s : String) : Bool := s.toList.isEmpty

/-- Whether a string ends with `'/'` (`String.prototype.endsWith('/')`). -/
def endsWithSlash (s : String) : Bool := s.toList.getLast? = some '/'

/-- Whether a string starts with `'/'`. -/
def startsWithSlash (s : String) : Bool := s.toList.head? = some '/'

/-- A configuration field that may be a string or a function
`(url, resourcePath, context) => string` (which may throw). -/
inductive StrFn where
  | str (s : String)
  | fn (f : String → String → String → Except String String)

/-- JavaScript truthiness of a `StrFn` value: a function is always truthy,
a string is truthy iff non-empty. -/
def StrFn.truthy : StrFn → Bool
  | .str s => !strEmpty s
  | .fn _ => true

/-- The recognized loader options (`options.json` schema fields).
`unrecognized` records any keys present on the raw options object that are
not part of the recognized schema. -/
structure Options where
  context : Option String := none
  name : Option String := none
  outputPath : Option StrFn := none
  publicPath : Option StrFn := none
  postTransformPublicPath : Option (String → Except String String) := none
  emitFile : Option Bool := none
  esModule : Option Bool := none
  regExp : Option String := none
  unrecognized : List String := []

/-- The host environment (webpack loader context and loader-utils):
root context, resource path, and the name-interpolation collaborator
`interpolateName(this, template, {context, content, regExp})`. -/
structure Env where
  rootContext : String
  resourcePath : String
  interpolate : String → String → Bytes → Option String → String

/-- Errors an invocation can end in: schema-validation failure, or an
error thrown by a user-supplied callback (propagated unchanged). -/
inductive LoaderError where
  | configurationError
  | userCallbackError (msg : String)
deriving DecidableEq

/-- Modelled from the spec: the `options.json` schema validation
(`validateOptions(schema, options, ...)`, src/index.js line 21).  The
schema file itself is not under `src/`; per the spec the recognized keys
are `context, name, outputPath, publicPath, postTransformPublicPath,
emitFile, regExp, esModule`, with no unrecognized keys permitted.  In this
typed embedding a type mismatch is unrepresentable, so validation succeeds
iff no unrecognized key is present. -/
def validateOptions (o : Options) : Bool :=
  o.unrecognized.isEmpty

/-- src/index.js line 29: `const context = options.context || this.rootContext;`
(JavaScript logical-or: an empty-string `context` option is falsy and
falls back to `rootContext`). -/
def contextOf (o : Options) (env : Env) : String :=
  match o.context with
  | some s => if strEmpty s then env.rootContext else s
  | none => env.rootContext

/-- src/index.js line 34: `options.name || '[contenthash].[ext]'`. -/
def nameTemplateOf (o : Options) : String :=
  match o.name with
  | some s => if strEmpty s then "[contenthash].[ext]" else s
  | none => "[contenthash].[ext]"

/-- src/index.js lines 32-40: the interpolated name (`url`). -/
def urlOf (o : Options) (env : Env) (content : Bytes) : String :=
  env.interpolate (nameTemplateOf o) (contextOf o env) content o.regExp

/-- Split a character list at `'/'` (`path.split('/')` semantics: the
number of pieces is one more than the number of separators). -/
def splitSlash : List Char → List (List Char)
  | [] => [[]]
  | ch :: rest =>
      if ch = '/' then [] :: splitSlash rest
      else
        match splitSlash rest with
        | [] => [[ch]]
        | h :: t => (ch :: h) :: t

/-- Join path segments with `'/'`. -/
def joinSlash : List (List Char) → List Char
  | [] => []
  | [x] => x
  | x :: xs => x ++ '/' :: joinSlash xs

/-- One step of Node's `normalizeString` over already-split path segments:
skip empty and `"."` segments, resolve `".."` against the accumulated
(reversed) output, keeping `".."` only when `allowAboveRoot`. -/
def normStep (allowAboveRoot : Bool) (acc : List (List Char)) (seg : List Char) :
    List (List Char) :=
  if seg = [] || seg = ['.'] then acc
  else if seg = ['.', '.'] then
    match acc with
    | [] => if allowAboveRoot then [['.', '.']] else []
    | last :: rest => if last = ['.', '.'] then seg :: last :: rest else rest
  else seg :: acc

/-- Node's `path.posix.normalize`: resolve `.`/`..` segments, collapse
repeated separators, preserve a leading and a trailing `/`. -/
def posixNormalize (p : String) : String :=
  match p.toList with
  | [] => "."
  | cs =>
    let isAbs := cs.head? = some '/'
    let trailing := cs.getLast? = some '/'
    let outRev := (splitSlash cs).foldl (normStep !isAbs) []
    let body := joinSlash outRev.reverse
    if body.isEmpty then
      if isAbs then "/" else if trailing then "./" else "."
    else
      String.mk ((if isAbs then ['/'] else []) ++ body ++ (if trailing then ['/'] else []))

/-- Node's `path.posix.join` on two arguments: concatenate the non-empty
arguments with `/`, then normalize; `"."` when nothing remains. -/
def posixJoin (a b : String) : String :=
  let joined :=
    if strEmpty a then b
    else if strEmpty b then a
    else a ++ "/" ++ b
  if strEmpty joined then "." else posixNormalize joined

/-- JSON.stringify's escaping of a single character inside a string
(ECMA-262 QuoteJSONString). -/
def jsonEscapeChar (ch : Char) : List Char :=
  if ch = '"' then ['\\', '"']
  else if ch = '\\' then ['\\', '\\']
  else if ch = '\x08' then ['\\', 'b']
  else if ch = '\x09' then ['\\', 't']
  else if ch = '\x0a' then ['\\', 'n']
  else if ch = '\x0c' then ['\\', 'f']
  else if ch = '\x0d' then ['\\', 'r']
  else if ch.toNat < 0x20 then
    ['\\', 'u', '0', '0', Nat.digitChar (ch.toNat / 16), Nat.digitChar (ch.toNat % 16)]
  else [ch]

/-- `JSON.stringify` applied to a string value: the escaped characters
wrapped in double quotes. -/
def jsonStringify (s : String) : String :=
  String.mk ('"' :: (s.toList.map jsonEscapeChar).flatten ++ ['"'])

/-- src/index.js lines 43-53: the output path.  `if (options.outputPath)`
is a truthiness test, so an empty-string `outputPath` option leaves the
default (`url`); a string option is joined with `path.posix.join`; a
function option is called as `options.outputPath(url, this.resourcePath,
context)` and may throw. -/
def outputPathOf (o : Options) (env : Env) (content : Bytes) : Except String String :=
  let url := urlOf o env content
  match o.outputPath with
  | some (.fn f) => f url env.resourcePath (contextOf o env)
  | some (.str s) =>
      if strEmpty s then Except.ok url else Except.ok (posixJoin s url)
  | none => Except.ok url

/-- src/index.js lines 59-74: the public-path expression before the post
transform.  The default is the concatenation expression against
`__webpack_public_path__`; if `options.publicPath` is truthy, the function
branch calls `options.publicPath(url, this.resourcePath, context)` and the
string branch appends a `/`-terminated prefix to `url`; in BOTH truthy
branches the result is then passed through `JSON.stringify` (line 73). -/
def publicPathBaseOf (o : Options) (env : Env) (content : Bytes)
    (outputPath : String) : Except String String :=
  let url := urlOf o env content
  match o.publicPath with
  | some (.fn f) =>
      match f url env.resourcePath (contextOf o env) with
      | .error e => .error e
      | .ok v => .ok (jsonStringify v)
  | some (.str s) =>
      if strEmpty s then
        .ok ("__webpack_public_path__ + " ++ jsonStringify outputPath)
      else
        .ok (jsonStringify ((if endsWithSlash s then s else s ++ "/") ++ url))
  | none => .ok ("__webpack_public_path__ + " ++ jsonStringify outputPath)

/-- src/index.js lines 79-81 on top of the branch result: the whole
public-path expression, after `options.postTransformPublicPath` (when
present) has rewritten it. -/
def publicPathFinalOf (o : Options) (env : Env) (content : Bytes) : Except String String :=
  match outputPathOf o env content with
  | .error e => .error e
  | .ok outputPath =>
    match publicPathBaseOf o env content outputPath with
    | .error e => .error e
    | .ok pp =>
      match o.postTransformPublicPath with
      | some g => g pp
      | none => .ok pp

/-- src/index.js lines 89-92: the returned statement, ES-module form
unless `options.esModule === false`. -/
def moduleWrap (o : Options) (publicPath : String) : String :=
  (match o.esModule with
   | none => "export default"
   | some b => if b then "export default" else "module.exports =")
    ++ " " ++ publicPath ++ ";"

/-- src/index.js line 84: emit iff `options.emitFile` is `undefined` or
truthy. -/
def emitDecision (o : Options) : Bool :=
  match o.emitFile with
  | none => true
  | some b => b

/-- The whole loader (src/index.js lines 12-93): validate the options,
resolve context/name/outputPath/publicPath in order, emit
`(outputPath, content)` when the emit decision holds, and return the
generated module source.  The second component is the list of
`this.emitFile` calls performed by the invocation. -/
def loader (o : Options) (env : Env) (content : Bytes) :
    Except LoaderError String × List (String × Bytes) :=
  if !validateOptions o then
    (.error .configurationError, [])
  else
    match outputPathOf o env content, publicPathFinalOf o env content with
    | .error e, _ => (.error (.userCallbackError e), [])
    | .ok _, .error e => (.error (.userCallbackError e), [])
    | .ok outputPath, .ok publicPath =>
        ( .ok (moduleWrap o publicPath),
          if emitDecision o then [(outputPath, content)] else [] )

/-- A convenient host environment for concrete tests: `interpolate`
ignores everything and returns a fixed name. -/
def constEnv (nm : String) : Env :=
  { rootContext := "/root"
    resourcePath := "/root/src/file.png"
    interpolate := fun _ _ _ _ => nm }

/-- An options record identical to `o` except that
`postTransformPublicPath` is absent. -/
def removePT (o : Options) : Options :=
  { o with postTransformPublicPath := none }

/-- Concrete options for tests: a `publicPath` function returning `"X"`. -/
def pubFnOpts : Options :=
  { publicPath := some (StrFn.fn (fun _ _ _ => Except.ok "X")) }

/-- Concrete options for tests: a string `publicPath` plus a
`postTransformPublicPath` that appends `"!"`. -/
def ptOpts : Options :=
  { publicPath := some (StrFn.str "cdn")
    postTransformPublicPath := some (fun s => Except.ok (s ++ "!")) }

/-- Concrete options for tests: a `postTransformPublicPath` that throws. -/
def boomOpts : Options :=
  { postTransformPublicPath := some (fun _ => Except.error "boom") }

example : posixJoin "dist" "abc123.png" = "dist/abc123.png" := by decide
example : posixJoin "dist/" "abc123.png" = "dist/abc123.png" := by decide
example : posixJoin "" "a//b" = "a/b" := by decide
example : posixJoin "a" "../b" = "b" := by decide
example : jsonStringify "abc123.png" = "\"abc123.png\"" := by decide
example :
    (loader {} (constEnv "abc123.png") [1, 2]).2 = [("abc123.png", [1, 2])] := by
  decide

theorem strEmpty_iff (s : String) : strEmpty s = true ↔ s = "" := by
  cases s with
  | mk data =>
    simp [strEmpty, String.toList, String.ext_iff]

theorem strEmpty_false_of_ne (s : String) (h : s ≠ "") : strEmpty s = false := by
  rw [Bool.eq_false_iff]
  intro hc
  exact h ((strEmpty_iff s).mp hc)

theorem validateOptions_true (o : Options) (h : o.unrecognized = []) :
    validateOptions o = true := by
  simp [validateOptions, h]

/-- C8: running the loader twice on identical inputs yields the identical
resolved name, output path and generated source (the embedding is a pure
function of its inputs: the source reads no mutable state). -/
theorem loader_deterministic (o : Options) (env : Env) (c : Bytes) :
    urlOf o env c = urlOf o env c ∧
    outputPathOf o env c = outputPathOf o env c ∧
    loader o env c = loader o env c :=
  ⟨rfl, rfl, rfl⟩

/-- C4: with no `publicPath` and no `postTransformPublicPath` configured and
`esModule` left to its default, an invocation whose resolved output path is
`"abc123.png"` returns exactly
`export default __webpack_public_path__ + "abc123.png";`. -/
theorem default_publicPath_source (o : Options) (env : Env) (c : Bytes)
    (hv : o.unrecognized = [])
    (hpp : o.publicPath = none)
    (hpt : o.postTransformPublicPath = none)
    (hes : o.esModule = none)
    (hop : outputPathOf o env c = Except.ok "abc123.png") :
    (loader o env c).1
      = Except.ok "export default __webpack_public_path__ + \"abc123.png\";" := by
  simp only [loader, validateOptions_true o hv, Bool.not_true, Bool.false_eq_true,
    if_false, publicPathFinalOf, publicPathBaseOf, hop, hpp, hpt, moduleWrap, hes]
  decide

/-- C4 witness: the default configuration on a host interpolating to
`"abc123.png"`. -/
theorem default_publicPath_source_witness :
    (loader {} (constEnv "abc123.png") []).1
      = Except.ok "export default __webpack_public_path__ + \"abc123.png\";" :=
  default_publicPath_source {} (constEnv "abc123.png") [] rfl rfl rfl rfl (by decide)

/-- C5: on a successfully completing invocation, `this.emitFile` is called
exactly once with `(outputPath, content)` iff `options.emitFile` is
undefined or truthy; with `emitFile === false` nothing is emitted but the
generated source is still produced from the computed public path. -/
theorem emit_iff_emitFile (o : Options) (env : Env) (c : Bytes)
    (hv : o.unrecognized = [])
    (p : String) (hop : outputPathOf o env c = Except.ok p)
    (q : String) (hpp : publicPathFinalOf o env c = Except.ok q) :
    ((loader o env c).2 = [(p, c)] ↔ (o.emitFile = none ∨ o.emitFile = some true)) ∧
    (o.emitFile = some false →
      (loader o env c).2 = [] ∧ (loader o env c).1 = Except.ok (moduleWrap o q)) := by
  simp only [loader, validateOptions_true o hv, Bool.not_true, Bool.false_eq_true,
    if_false, hop, hpp]
  cases he : o.emitFile with
  | none => simp [emitDecision, he]
  | some b => cases b <;> simp [emitDecision, he]

/-- C5 witness: default options emit exactly once. -/
theorem emit_iff_emitFile_witness :
    ((loader {} (constEnv "n") []).2 = [("n", [])] ↔
        (({} : Options).emitFile = none ∨ ({} : Options).emitFile = some true)) ∧
    (({} : Options).emitFile = some false →
      (loader {} (constEnv "n") []).2 = [] ∧
        (loader {} (constEnv "n") []).1
          = Except.ok (moduleWrap {} "__webpack_public_path__ + \"n\"")) :=
  emit_iff_emitFile {} (constEnv "n") [] rfl "n" (by decide)
    "__webpack_public_path__ + \"n\"" (by decide)

/-- C6: an options object carrying an unrecognized key makes the loader
fail with a ConfigurationError before anything else happens — for every
host environment and content the result is the same error and nothing is
emitted — and schema validation is the only step that can produce a
ConfigurationError. -/
theorem config_validation_first (o : Options) (env : Env) (c : Bytes) :
    (o.unrecognized ≠ [] →
        loader o env c = (Except.error LoaderError.configurationError, [])) ∧
    ((loader o env c).1 = Except.error LoaderError.configurationError →
        o.unrecognized ≠ []) := by
  cases hu : o.unrecognized with
  | nil =>
    refine ⟨fun h => absurd rfl h, fun h => ?_⟩
    exfalso
    simp only [loader, validateOptions_true o hu, Bool.not_true, Bool.false_eq_true,
      if_false] at h
    rcases h1 : outputPathOf o env c with e | p <;>
      rcases h2 : publicPathFinalOf o env c with e2 | q <;>
        simp [h1, h2] at h
  | cons k ks =>
    constructor
    · intro _
      simp [loader, validateOptions, hu]
    · intro _
      simp [hu]

/-- C6 witness: the options object `{foo: 1}` is rejected with a
ConfigurationError and `env.emit` is never called. -/
theorem config_validation_first_witness :
    loader { unrecognized := ["foo"] } (constEnv "n") []
      = (Except.error LoaderError.configurationError, []) :=
  (config_validation_first { unrecognized := ["foo"] } (constEnv "n") []).1 (by decide)

/-- C10: an invocation that ends in an error (a user-supplied callback
threw, or validation failed) emits nothing: emission is sequenced after
all output-path and public-path resolution. -/
theorem no_emit_on_error (o : Options) (env : Env) (c : Bytes) (e : LoaderError)
    (h : (loader o env c).1 = Except.error e) :
    (loader o env c).2 = [] := by
  by_cases hv : validateOptions o = true
  · simp only [loader, hv, Bool.not_true, Bool.false_eq_true, if_false] at h ⊢
    rcases h1 : outputPathOf o env c with e1 | p <;>
      rcases h2 : publicPathFinalOf o env c with e2 | q <;>
        simp [h1, h2] at h ⊢
  · simp [loader, Bool.eq_false_iff.mpr hv]

/-- C10 witness: a throwing `postTransformPublicPath` prevents emission. -/
theorem no_emit_on_error_witness :
    (loader boomOpts (constEnv "n") []).2 = [] :=
  no_emit_on_error boomOpts (constEnv "n") []
    (LoaderError.userCallbackError "boom") (by decide)

/-- C2 counterexample: with `context` configured as the empty string (a
present, non-nullish value) the code resolves the context to
`env.rootContext`, not to the configured `""` — line 29 uses JavaScript
`||`, not `??`. -/
theorem context_empty_counterexample :
    contextOf { context := some "" } (constEnv "n") = "/root" ∧
      ("/root" : String) ≠ "" := by
  decide

/-- C2 amended: the interpolation context equals `config.context` when that
option is a non-empty (truthy) string, and `env.rootContext` when the
option is absent or the empty string (logical-or fallback). -/
theorem contextOf_truthy_or_root (o : Options) (env : Env) :
    (∀ s, o.context = some s → s ≠ "" → contextOf o env = s) ∧
    ((o.context = none ∨ o.context = some "") → contextOf o env = env.rootContext) := by
  constructor
  · intro s hs hne
    simp [contextOf, hs, strEmpty_false_of_ne s hne]
  · rintro (h | h) <;> simp [contextOf, h, strEmpty]

/-- C2 witness: a truthy configured context wins; an empty one falls back
to the root context. -/
theorem contextOf_truthy_or_root_witness :
    contextOf { context := some "ctx" } (constEnv "n") = "ctx" :=
  (contextOf_truthy_or_root { context := some "ctx" } (constEnv "n")).1
    "ctx" rfl (by decide)

/-- C9 counterexample: with `outputPath` configured as the empty string (a
string value, but falsy) the truthiness test on line 47 skips the join, so
the output path is the name unchanged, while `posixJoin` would have
normalized it (`"a//b"` to `"a/b"`). -/
theorem outputPath_empty_counterexample :
    outputPathOf { outputPath := some (StrFn.str "") } (constEnv "a//b") []
        = Except.ok "a//b" ∧
      posixJoin "" "a//b" = "a/b" ∧ ("a//b" : String) ≠ "a/b" := by
  decide

/-- C9 amended: for a NON-EMPTY string `outputPath` the resolved output
path is the POSIX join of the option with the resolved name; an
empty-string `outputPath` is falsy and leaves the name unchanged (no
normalization). -/
theorem outputPath_string_join (o : Options) (env : Env) (c : Bytes) (s : String)
    (h : o.outputPath = some (StrFn.str s)) :
    (s ≠ "" → outputPathOf o env c = Except.ok (posixJoin s (urlOf o env c))) ∧
    (s = "" → outputPathOf o env c = Except.ok (urlOf o env c)) := by
  constructor
  · intro hne
    simp [outputPathOf, h, strEmpty_false_of_ne s hne]
  · intro he
    subst he
    simp [outputPathOf, h, strEmpty]

/-- C9 witness: `outputPath "dist"` with name `"abc123.png"` joins to
`"dist/abc123.png"`. -/
theorem outputPath_string_join_witness :
    outputPathOf { outputPath := some (StrFn.str "dist") } (constEnv "abc123.png") []
      = Except.ok (posixJoin "dist"
          (urlOf { outputPath := some (StrFn.str "dist") } (constEnv "abc123.png") [])) :=
  (outputPath_string_join { outputPath := some (StrFn.str "dist") }
    (constEnv "abc123.png") [] "dist" rfl).1 (by decide)

/-- C3 counterexample: with `publicPath` configured as the empty string (a
string value, but falsy) the truthiness test on line 61 falls through to
the default `__webpack_public_path__` expression instead of the quoted
`"/" + name` the claim prescribes for a string publicPath. -/
theorem publicPath_empty_counterexample :
    (loader { publicPath := some (StrFn.str "") } (constEnv "a.png") []).1
        = Except.ok "export default __webpack_public_path__ + \"a.png\";" ∧
      ("export default __webpack_public_path__ + \"a.png\";" : String)
        ≠ "export default \"/a.png\";" := by
  decide

/-- C3 amended: for a NON-EMPTY string `publicPath` (and no
`postTransformPublicPath`), the embedded public-path value is the option
normalized to end with `/`, concatenated with the resolved name (not the
output path), and the whole result JSON-quoted as a source string
literal. -/
theorem publicPath_string_mode (o : Options) (env : Env) (c : Bytes) (s : String)
    (hs : o.publicPath = some (StrFn.str s)) (hne : s ≠ "")
    (hpt : o.postTransformPublicPath = none)
    (op : String) (hop : outputPathOf o env c = Except.ok op) :
    publicPathFinalOf o env c
        = Except.ok (jsonStringify
            ((if endsWithSlash s then s else s ++ "/") ++ urlOf o env c)) ∧
    (o.unrecognized = [] →
      (loader o env c).1
        = Except.ok (moduleWrap o (jsonStringify
            ((if endsWithSlash s then s else s ++ "/") ++ urlOf o env c)))) := by
  have hpf : publicPathFinalOf o env c
      = Except.ok (jsonStringify
          ((if endsWithSlash s then s else s ++ "/") ++ urlOf o env c)) := by
    simp [publicPathFinalOf, publicPathBaseOf, hop, hs, hpt,
      strEmpty_false_of_ne s hne]
  refine ⟨hpf, fun hv => ?_⟩
  simp [loader, validateOptions_true o hv, hop, hpf]

/-- C3 witness: `publicPath "https://cdn.example.com"` (no trailing slash)
with name `"abc123.png"` generates
`export default "https://cdn.example.com/abc123.png";`. -/
theorem publicPath_string_mode_witness :
    (loader { publicPath := some (StrFn.str "https://cdn.example.com") }
        (constEnv "abc123.png") []).1
      = Except.ok "export default \"https://cdn.example.com/abc123.png\";" := by
  have h := (publicPath_string_mode
      { publicPath := some (StrFn.str "https://cdn.example.com") }
      (constEnv "abc123.png") [] "https://cdn.example.com" rfl (by decide) rfl
      "abc123.png" (by decide)).2 rfl
  rw [h]
  decide

/-- C1 counterexample: a `publicPath` function returning `"X"` does not
embed `X` verbatim — line 73 JSON-quotes the function's return value, so
the generated source is `export default "X";`, not `export default X;`. -/
theorem publicPath_fn_counterexample :
    (loader pubFnOpts (constEnv "n") []).1 = Except.ok "export default \"X\";" ∧
      ("export default \"X\";" : String) ≠ "export default X;" := by
  decide

/-- C1 amended: for a function `publicPath` (and no
`postTransformPublicPath`), the embedded public-path expression is
`JSON.stringify` of the value returned by
`config.publicPath(name, env.resourcePath, context)` — quoted as a source
string literal, not used verbatim. -/
theorem publicPath_fn_quoted (o : Options) (env : Env) (c : Bytes)
    (f : String → String → String → Except String String)
    (hf : o.publicPath = some (StrFn.fn f))
    (hpt : o.postTransformPublicPath = none)
    (op : String) (hop : outputPathOf o env c = Except.ok op)
    (v : String)
    (hv : f (urlOf o env c) env.resourcePath (contextOf o env) = Except.ok v) :
    publicPathFinalOf o env c = Except.ok (jsonStringify v) ∧
    (o.unrecognized = [] →
      (loader o env c).1 = Except.ok (moduleWrap o (jsonStringify v))) := by
  have hpf : publicPathFinalOf o env c = Except.ok (jsonStringify v) := by
    simp [publicPathFinalOf, publicPathBaseOf, hop, hf, hv, hpt]
  refine ⟨hpf, fun hu => ?_⟩
  simp [loader, validateOptions_true o hu, hop, hpf]

/-- C1 witness: a `publicPath` function returning `"X"` embeds the quoted
literal `"X"`. -/
theorem publicPath_fn_quoted_witness :
    publicPathFinalOf pubFnOpts (constEnv "n") [] = Except.ok (jsonStringify "X") :=
  (publicPath_fn_quoted pubFnOpts (constEnv "n") []
    (fun _ _ _ => Except.ok "X") rfl rfl "n" (by decide) "X" rfl).1

/-- C7: `postTransformPublicPath` is applied last: whatever public-path
expression the default/function/string branch produced, the transform
receives it and its return value replaces it verbatim in the generated
source. -/
theorem postTransform_last (o : Options) (env : Env) (c : Bytes)
    (g : String → Except String String) (p : String)
    (hg : o.postTransformPublicPath = some g)
    (hp : publicPathFinalOf (removePT o) env c = Except.ok p) :
    publicPathFinalOf o env c = g p ∧
    (∀ q, g p = Except.ok q → o.unrecognized = [] →
      (loader o env c).1 = Except.ok (moduleWrap o q)) := by
  rcases h1 : outputPathOf o env c with e1 | op
  · exfalso
    have h1r : outputPathOf (removePT o) env c = Except.error e1 := h1
    simp [publicPathFinalOf, h1r] at hp
  · have h1r : outputPathOf (removePT o) env c = Except.ok op := h1
    rcases hb : publicPathBaseOf o env c op with e2 | pp
    · exfalso
      have hbr : publicPathBaseOf (removePT o) env c op = Except.error e2 := hb
      simp [publicPathFinalOf, h1r, hbr] at hp
    · have hbr : publicPathBaseOf (removePT o) env c op = Except.ok pp := hb
      have hppp : pp = p := by
        have hnone : (removePT o).postTransformPublicPath = none := rfl
        simp [publicPathFinalOf, h1r, hbr, hnone] at hp
        exact hp
      subst hppp
      have hmain : publicPathFinalOf o env c = g pp := by
        simp [publicPathFinalOf, h1, hb, hg]
      refine ⟨hmain, fun q hq hu => ?_⟩
      simp [loader, validateOptions_true o hu, h1, hmain, hq]

/-- C7 witness: a transform appending `"!"` to the quoted string-branch
expression yields that expression with `"!"` appended. -/
theorem postTransform_last_witness :
    publicPathFinalOf ptOpts (constEnv "n") [] = Except.ok "\"cdn/n\"!" := by
  have h := (postTransform_last ptOpts (constEnv "n") []
      (fun s => Except.ok (s ++ "!")) "\"cdn/n\"" rfl (by decide)).1
  rw [h]
  decide
